import Mathlib

/-!
Verification of the `searchChargers` pipeline (src/lib/searchCharger.ts).

A shallow embedding of the proximity-search / result-assembly pipeline of the
EV-charger demo application, together with proofs of the frozen claims about it.

Modelling conventions:

* JavaScript numbers are modelled as `ENum := Option ℚ`, where `none` stands
  for `NaN` and `some q` for a finite number; IEEE comparisons against `NaN`
  are `false`, which the orderings `nge`/`nle` reproduce exactly.
* Redis hashes (`hGetAll`) always resolve, returning a field map; a missing
  key yields an empty map.  A `Hash` therefore has `Option String` fields,
  `none` meaning the field is absent (JavaScript `undefined`).
* The geo-index reply is modelled per the spec's adapter contract (§4.1):
  a member id, an optional numeric distance and an optional coordinate echo.
* `Number(x)` coercion is modelled for absent values (`NaN`), empty/blank
  strings (`0`) and signed decimal literals; other strings coerce to `NaN`.
* `JSON.parse` is modelled by an executable fuelled recursive-descent parser
  of JSON values (`jsonParse`); a failing parse is the thrown `SyntaxError`,
  which aborts the whole call (`Except.error`), exactly as an uncaught
  exception rejects the async function.
* `Array.prototype.sort` (required stable by ECMAScript) is modelled by
  `List.mergeSort` with the boolean relation "comparator result ≤ 0", where a
  `NaN` comparator result counts as `0`.
-/

namespace EvCharger

/-- A JavaScript number: `none` is `NaN`, `some q` a finite value. -/
abbrev ENum := Option ℚ

/-- IEEE `a >= b`: `false` whenever either side is `NaN`. -/
def nge : ENum → ENum → Bool
  | some a, some b => decide (b ≤ a)
  | _, _ => false

/-- IEEE `a <= b`: `false` whenever either side is `NaN`. -/
def nle : ENum → ENum → Bool
  | some a, some b => decide (a ≤ b)
  | _, _ => false

/-- JavaScript subtraction; `NaN` propagates. -/
def subNum : ENum → ENum → ENum
  | some a, some b => some (a - b)
  | _, _ => none

/-- The test that a comparator result is not positive: how `Array.prototype.sort`
consumes a comparator value, a `NaN` result being treated like `0`. -/
def compNonpos : ENum → Bool
  | some q => decide (q ≤ 0)
  | none => true

/-- Numeric value of a digit string (most significant first). -/
def digitsToNat (l : List Char) : ℕ :=
  l.foldl (fun a c => 10 * a + (c.toNat - 48)) 0

/-- An unsigned decimal literal `digits [. digits]` (at least one digit). -/
def decLit (l : List Char) : Option ℚ :=
  let ip := l.takeWhile Char.isDigit
  let rest := l.dropWhile Char.isDigit
  match rest with
  | [] => if ip.isEmpty then none else some ((digitsToNat ip : ℚ))
  | '.' :: fp =>
      if fp.all Char.isDigit && (!ip.isEmpty || !fp.isEmpty) then
        some ((digitsToNat ip : ℚ) + (digitsToNat fp : ℚ) / (10 : ℚ) ^ fp.length)
      else none
  | _ => none

/-- An optionally signed decimal literal. -/
def signedLit : List Char → Option ℚ
  | '-' :: l => (decLit l).map (fun q => -q)
  | '+' :: l => decLit l
  | l => decLit l

/-- JavaScript `Number(x)` on an optional stored string: `undefined ↦ NaN`,
blank strings `↦ 0`, signed decimal literals to their value, anything else
`↦ NaN` (exponent/hex forms are not needed by the repository's data). -/
def jsNumber : Option String → ENum
  | none => none
  | some s =>
      let l := ((s.toList.dropWhile Char.isWhitespace).reverse.dropWhile
        Char.isWhitespace).reverse
      if l.isEmpty then some 0 else signedLit l

/-- JavaScript string truthiness of an optional string field:
present and non-empty. -/
def strTruthy : Option String → Bool
  | some s => !(s = "")
  | none => false

/-- Model of `String.prototype.toLowerCase` (ASCII). -/
def lowerStr (s : String) : String := String.map Char.toLower s

/-- Model of `String.prototype.trim`. -/
def trimStr (s : String) : String :=
  String.mk (((s.toList.dropWhile Char.isWhitespace).reverse.dropWhile
    Char.isWhitespace).reverse)

/-- Does `hay` start with `needle`? -/
def leadsWith : List Char → List Char → Bool
  | [], _ => true
  | _ :: _, [] => false
  | a :: as, b :: bs => a = b && leadsWith as bs

/-- Model of `String.prototype.includes`: `needle` occurs contiguously in `hay`. -/
def hasInfix (hay needle : List Char) : Bool :=
  match hay with
  | [] => needle.isEmpty
  | _ :: t => leadsWith needle hay || hasInfix t needle

/-! ## A model of `JSON.parse` -/

/-- The result type of the `JSON.parse` model: any JSON document the
amenities field could hold (the seeding script stores arrays of strings, but
the code accepts whatever parses). -/
inductive Json where
  | null : Json
  | bool : Bool → Json
  | num : ℚ → Json
  | str : String → Json
  | arr : List Json → Json
  | obj : List (String × Json) → Json

/-- JSON insignificant whitespace. -/
def jsonWs (c : Char) : Bool :=
  c = ' ' || c = '\t' || c = '\n' || c = '\r'

def skipWs (l : List Char) : List Char := l.dropWhile jsonWs

/-- Value of a hexadecimal digit. -/
def hexVal : Char → Option ℕ
  | c =>
    if c.isDigit then some (c.toNat - 48)
    else if 'a' ≤ c && c ≤ 'f' then some (c.toNat - 87)
    else if 'A' ≤ c && c ≤ 'F' then some (c.toNat - 55)
    else none

/-- Simple JSON string escapes. -/
def jEscChar : Char → Option Char
  | '"' => some '"'
  | '\\' => some '\\'
  | '/' => some '/'
  | 'b' => some (Char.ofNat 8)
  | 'f' => some (Char.ofNat 12)
  | 'n' => some '\n'
  | 'r' => some (Char.ofNat 13)
  | 't' => some '\t'
  | _ => none

/-- Parse the body of a JSON string after the opening quote; returns the
decoded characters and the remaining input. -/
def parseJStr : List Char → Option (List Char × List Char)
  | '"' :: rest => some ([], rest)
  | '\\' :: 'u' :: a :: b :: c :: d :: rest => do
      let va ← hexVal a
      let vb ← hexVal b
      let vc ← hexVal c
      let vd ← hexVal d
      let (s, r) ← parseJStr rest
      some (Char.ofNat (((va * 16 + vb) * 16 + vc) * 16 + vd) :: s, r)
  | '\\' :: e :: rest => do
      let ec ← jEscChar e
      let (s, r) ← parseJStr rest
      some (ec :: s, r)
  | c :: rest =>
      if c.toNat < 32 then none
      else do
        let (s, r) ← parseJStr rest
        some (c :: s, r)
  | [] => none

/-- Parse the optional fraction part of a JSON number. -/
def parseFrac : List Char → Option (ℚ × List Char)
  | '.' :: r =>
      let d := r.takeWhile Char.isDigit
      if d.isEmpty then none
      else some ((digitsToNat d : ℚ) / (10 : ℚ) ^ d.length, r.dropWhile Char.isDigit)
  | l => some (0, l)

/-- Parse the digits of an exponent (after any sign). -/
def expDigits (l : List Char) : Option (ℕ × List Char) :=
  let d := l.takeWhile Char.isDigit
  if d.isEmpty then none else some (digitsToNat d, l.dropWhile Char.isDigit)

/-- Parse the optional exponent part of a JSON number. -/
def parseExp : List Char → Option (ℤ × List Char)
  | 'e' :: '+' :: r => (expDigits r).map (fun p => ((p.1 : ℤ), p.2))
  | 'e' :: '-' :: r => (expDigits r).map (fun p => (-(p.1 : ℤ), p.2))
  | 'e' :: r => (expDigits r).map (fun p => ((p.1 : ℤ), p.2))
  | 'E' :: '+' :: r => (expDigits r).map (fun p => ((p.1 : ℤ), p.2))
  | 'E' :: '-' :: r => (expDigits r).map (fun p => (-(p.1 : ℤ), p.2))
  | 'E' :: r => (expDigits r).map (fun p => ((p.1 : ℤ), p.2))
  | l => some (0, l)

/-- Parse a JSON number (`-? int frac? exp?`, no leading zeros). -/
def parseJNum (l : List Char) : Option (ℚ × List Char) :=
  let (neg, l1) := match l with
    | '-' :: r => (true, r)
    | _ => (false, l)
  let ip := l1.takeWhile Char.isDigit
  let l2 := l1.dropWhile Char.isDigit
  if ip.isEmpty then none
  else if 1 < ip.length && ip.headD '0' = '0' then none
  else do
    let (fr, l3) ← parseFrac l2
    let (ex, l4) ← parseExp l3
    let m : ℚ := (digitsToNat ip : ℚ) + fr
    some ((if neg then -m else m) * (10 : ℚ) ^ ex, l4)

mutual

/-- Parse one JSON value (fuelled recursive descent). -/
def parseVal : ℕ → List Char → Option (Json × List Char)
  | 0, _ => none
  | fuel + 1, l =>
    match skipWs l with
    | 'n' :: 'u' :: 'l' :: 'l' :: r => some (.null, r)
    | 't' :: 'r' :: 'u' :: 'e' :: r => some (.bool true, r)
    | 'f' :: 'a' :: 'l' :: 's' :: 'e' :: r => some (.bool false, r)
    | '"' :: r => (parseJStr r).map (fun p => (.str (String.mk p.1), p.2))
    | '[' :: r =>
        match skipWs r with
        | ']' :: r2 => some (.arr [], r2)
        | r2 => (parseItems fuel r2).map (fun p => (.arr p.1, p.2))
    | c :: r =>
        if c = Char.ofNat 123 then
          match skipWs r with
          | c2 :: r2 =>
              if c2 = Char.ofNat 125 then some (.obj [], r2)
              else (parseMembers fuel (c2 :: r2)).map (fun p => (.obj p.1, p.2))
          | [] => none
        else (parseJNum (c :: r)).map (fun p => (.num p.1, p.2))
    | [] => none

/-- Parse the items of a non-empty JSON array, up to and including `]`. -/
def parseItems : ℕ → List Char → Option (List Json × List Char)
  | 0, _ => none
  | fuel + 1, l => do
      let (v, r) ← parseVal fuel l
      match skipWs r with
      | ',' :: r2 => do
          let (vs, r3) ← parseItems fuel r2
          some (v :: vs, r3)
      | ']' :: r2 => some ([v], r2)
      | _ => none

/-- Parse the members of a non-empty JSON object, up to and including the
closing brace. -/
def parseMembers : ℕ → List Char → Option (List (String × Json) × List Char)
  | 0, _ => none
  | fuel + 1, l =>
      match skipWs l with
      | '"' :: r => do
          let (k, r1) ← parseJStr r
          match skipWs r1 with
          | ':' :: r2 => do
              let (v, r3) ← parseVal fuel r2
              match skipWs r3 with
              | ',' :: r4 => do
                  let (ms, r5) ← parseMembers fuel r4
                  some ((String.mk k, v) :: ms, r5)
              | c :: r4 =>
                  if c = Char.ofNat 125 then some ([(String.mk k, v)], r4)
                  else none
              | [] => none
          | _ => none
      | _ => none

end

/-- Model of `JSON.parse`: `some` a value on success, `none` for a thrown
`SyntaxError`. -/
def jsonParse (s : String) : Option Json :=
  match parseVal (s.length + 1) s.toList with
  | some (v, r) => if (skipWs r).isEmpty then some v else none
  | none => none

/-! ## Data model -/

/-- A coordinate pair echoed by the geo index (`WITHCOORD`). -/
structure Coordinates where
  longitude : ℚ
  latitude : ℚ
deriving DecidableEq

/-- One geo-index hit: member id, reported distance (km) and optional
coordinate echo, per the adapter contract of spec §4.1. -/
structure GeoHit where
  member : String
  distance : Option ℚ := none
  coordinates : Option Coordinates := none

/-- A stored attribute record fetched with `hGetAll` under the namespaced charger key: a string field map.
`none` is an absent field (JavaScript `undefined`); an entity with no record
at all yields the empty map. -/
structure Hash where
  lat : Option String := none
  lng : Option String := none
  name : Option String := none
  address : Option String := none
  powerKW : Option String := none
  pricePerKWh : Option String := none
  status : Option String := none
  amenities : Option String := none
  updatedAt : Option String := none

/-- The empty attribute record, as returned for a missing key. -/
def hashEmpty : Hash := {}

/-- Display coordinates of a result record (possibly `NaN` components,
from `Number(...)` on non-numeric stored strings). -/
structure Coords where
  lat : ENum
  lng : ENum
deriving DecidableEq

/-- A merged result record, as built by `searchChargers`. -/
structure Item where
  id : String
  name : Option String
  address : Option String
  powerKW : ENum
  pricePerKWh : ENum
  status : Option String
  amenities : Json
  updatedAt : ENum
  coords : Option Coords
  distanceKm : ENum

/-- The available sort keys. -/
inductive SortBy where
  | distance
  | power
  | price
  | updated
deriving DecidableEq

/-- The only error the pipeline itself can raise: the `SyntaxError` thrown
by `JSON.parse` on a malformed amenities field. -/
inductive JsError where
  | syntaxError
deriving DecidableEq

/-! ## The pipeline -/

/-- Amenities parsing, `JSON.parse` applied to the stored value or to the
literal empty-array text: a falsy stored value (absent field or
empty string) is replaced by the empty-array literal before parsing. -/
def amenitiesVal (a : Option String) : Option Json :=
  jsonParse (match a with
    | some s => if s = "" then "[]" else s
    | none => "[]")

/-- Coordinate resolution: prefer the attribute store's `lat`/`lng` (when both
are truthy), else the index echo, else `undefined`. -/
def resolveCoords (g : GeoHit) (h : Hash) : Option Coords :=
  if strTruthy h.lat && strTruthy h.lng then
    some ⟨jsNumber h.lat, jsNumber h.lng⟩
  else
    match g.coordinates with
    | some c => some ⟨some c.latitude, some c.longitude⟩
    | none => none

/-- Distance of a result record, from the truthiness test on the reported
distance: a falsy value
(absent, or the number `0`) yields `NaN`, a truthy one its numeric value. -/
def distVal : Option ℚ → ENum
  | some q => if q = 0 then none else some q
  | none => none

/-- Build one result record from a geo hit and its attribute record; the
`JSON.parse` of a malformed amenities field throws. -/
def buildItem (g : GeoHit) (h : Hash) : Except JsError Item :=
  match amenitiesVal h.amenities with
  | none => .error .syntaxError
  | some am => .ok {
      id := g.member
      name := h.name
      address := h.address
      powerKW := jsNumber h.powerKW
      pricePerKWh := jsNumber h.pricePerKWh
      status := h.status
      amenities := am
      updatedAt := jsNumber h.updatedAt
      coords := resolveCoords g h
      distanceKm := distVal g.distance }

/-- The merge stage: build one record per hit, in index order; an exception
from any record aborts the whole stage. -/
def mergeStage (attrs : String → Hash) : List GeoHit → Except JsError (List Item)
  | [] => .ok []
  | g :: gs =>
    match buildItem g (attrs g.member) with
    | .error e => .error e
    | .ok c =>
      match mergeStage attrs gs with
      | .error e => .error e
      | .ok cs => .ok (c :: cs)

/-- Per-field text match: `field?.toLowerCase().includes(query)`. -/
def matchText (query : String) : Option String → Bool
  | some s => hasInfix (lowerStr s).toList query.toList
  | none => false

/-- The filter predicate over one record (`query` is already lowercased and
trimmed): text match (vacuous for an empty query), `powerKW >= minPower` and
`pricePerKWh <= maxPrice + 1e-9`, with IEEE comparisons. -/
def keepItem (query : String) (minPower maxPrice : ℚ) (c : Item) : Bool :=
  ((query = "" : Bool) || matchText query c.name || matchText query c.address)
    && nge c.powerKW (some minPower)
    && nle c.pricePerKWh (some (maxPrice + 1 / 1000000000))

/-- The filter stage: lowercase and trim the free-text query, then filter. -/
def filterStage (q : String) (minPower maxPrice : ℚ) (items : List Item) :
    List Item :=
  items.filter (keepItem (trimStr (lowerStr q)) minPower maxPrice)

/-- The comparator of the sort callback, as a JavaScript number. -/
def comparatorVal (k : SortBy) (a b : Item) : ENum :=
  match k with
  | .power => subNum b.powerKW a.powerKW
  | .price => subNum a.pricePerKWh b.pricePerKWh
  | .updated => subNum b.updatedAt a.updatedAt
  | .distance => some 0

/-- Whether `a` may stay before `b` under the comparator (comparator value
not positive, a `NaN` counting as `0`). -/
def sortLe (k : SortBy) (a b : Item) : Bool :=
  compNonpos (comparatorVal k a b)

/-- The sort stage: pass-through for `distance` (the index's native order),
otherwise a stable sort by the selected comparator. -/
def sortStage (k : SortBy) (items : List Item) : List Item :=
  if k = .distance then items else items.mergeSort (sortLe k)

/-- The options object of `searchChargers`; `none` marks an omitted optional
parameter. -/
structure SearchOpts where
  lat : ℚ
  lng : ℚ
  radiusKm : Option ℚ := none
  limit : Option ℕ := none
  minPower : Option ℚ := none
  maxPrice : Option ℚ := none
  q : Option String := none
  sortBy : Option SortBy := none

/-- The radius query issued to the geo index. -/
structure GeoQuery where
  lat : ℚ
  lng : ℚ
  radius : ℚ
  limit : ℕ
deriving DecidableEq

/-- The radius query built from the (defaulted) options. -/
def geoQueryOf (o : SearchOpts) : GeoQuery :=
  ⟨o.lat, o.lng, o.radiusKm.getD 30, o.limit.getD 200⟩

/-- The full pipeline.  The backing store is a parameter: `store` answers the
radius query with distance-ascending hits, `attrs` answers the per-id
attribute lookups (total: a missing key gives the empty map). -/
def searchChargers (store : GeoQuery → List GeoHit) (attrs : String → Hash)
    (o : SearchOpts) : Except JsError (List Item) :=
  let geo := store (geoQueryOf o)
  match mergeStage attrs geo with
  | .error e => .error e
  | .ok items =>
      .ok (sortStage (o.sortBy.getD .distance)
        (filterStage (o.q.getD "") (o.minPower.getD 0) (o.maxPrice.getD 10) items))

/-! ## Helper lemmas -/

/-- Inversion of a successful record build. -/
theorem buildItem_ok_iff {g : GeoHit} {h : Hash} {c : Item} :
    buildItem g h = .ok c ↔
      ∃ am, amenitiesVal h.amenities = some am ∧
        c = { id := g.member, name := h.name, address := h.address,
              powerKW := jsNumber h.powerKW,
              pricePerKWh := jsNumber h.pricePerKWh,
              status := h.status, amenities := am,
              updatedAt := jsNumber h.updatedAt,
              coords := resolveCoords g h,
              distanceKm := distVal g.distance } := by
  unfold buildItem
  cases hm : amenitiesVal h.amenities with
  | none => simp
  | some am =>
      constructor
      · intro hc
        exact ⟨am, rfl, by injection hc with h; exact h.symm⟩
      · rintro ⟨am', ham', rfl⟩
        injection ham' with h
        subst h
        rfl

/-- A successful merge yields one record per hit, in order. -/
theorem mergeStage_ok_get {attrs : String → Hash} :
    ∀ {geo : List GeoHit} {l : List Item}, mergeStage attrs geo = .ok l →
      l.length = geo.length ∧
      ∀ (i : ℕ) (g : GeoHit), geo[i]? = some g →
        ∃ c, l[i]? = some c ∧ buildItem g (attrs g.member) = .ok c := by
  intro geo
  induction geo with
  | nil =>
      intro l hl
      injection hl with hl
      subst hl
      refine ⟨rfl, ?_⟩
      intro i g hg
      simp at hg
  | cons g gs ih =>
      intro l hl
      unfold mergeStage at hl
      cases hb : buildItem g (attrs g.member) with
      | error e => rw [hb] at hl; exact absurd hl (by simp)
      | ok c =>
          rw [hb] at hl
          cases hm : mergeStage attrs gs with
          | error e => rw [hm] at hl; exact absurd hl (by simp)
          | ok cs =>
              rw [hm] at hl
              injection hl with hl
              subst hl
              obtain ⟨hlen, hget⟩ := ih hm
              refine ⟨by simpa using hlen, ?_⟩
              intro i g' hg'
              cases i with
              | zero =>
                  simp only [List.getElem?_cons_zero, Option.some_inj] at hg'
                  subst hg'
                  exact ⟨c, by simp, hb⟩
              | succ j =>
                  simp only [List.getElem?_cons_succ] at hg' ⊢
                  exact hget j g' hg'

/-- Every record of a successful merge comes from some hit. -/
theorem mergeStage_ok_mem {attrs : String → Hash} :
    ∀ {geo : List GeoHit} {l : List Item}, mergeStage attrs geo = .ok l →
      ∀ c ∈ l, ∃ g ∈ geo, buildItem g (attrs g.member) = .ok c := by
  intro geo
  induction geo with
  | nil =>
      intro l hl
      injection hl with hl
      subst hl
      intro c hc
      simp at hc
  | cons g gs ih =>
      intro l hl
      unfold mergeStage at hl
      cases hb : buildItem g (attrs g.member) with
      | error e => rw [hb] at hl; exact absurd hl (by simp)
      | ok c =>
          rw [hb] at hl
          cases hm : mergeStage attrs gs with
          | error e => rw [hm] at hl; exact absurd hl (by simp)
          | ok cs =>
              rw [hm] at hl
              injection hl with hl
              subst hl
              intro c' hc'
              rcases List.mem_cons.mp hc' with h | h
              · exact ⟨g, List.mem_cons_self g gs, h ▸ hb⟩
              · obtain ⟨g', hg', hb'⟩ := ih hm c' h
                exact ⟨g', List.mem_cons_of_mem g hg', hb'⟩

/-- A failing record build makes the whole merge stage fail. -/
theorem mergeStage_error_of_mem {attrs : String → Hash} :
    ∀ {geo : List GeoHit} {g : GeoHit}, g ∈ geo →
      buildItem g (attrs g.member) = .error .syntaxError →
      mergeStage attrs geo = .error .syntaxError := by
  intro geo
  induction geo with
  | nil => intro g hg; simp at hg
  | cons g' gs ih =>
      intro g hg hb
      rcases List.mem_cons.mp hg with h | h
      · subst h
        unfold mergeStage
        rw [hb]
      · unfold mergeStage
        cases hb' : buildItem g' (attrs g'.member) with
        | error e => cases e; rfl
        | ok c => rw [ih h hb]

/-- Unfolding of the full pipeline through the merge stage's result. -/
theorem searchChargers_eq (store : GeoQuery → List GeoHit)
    (attrs : String → Hash) (o : SearchOpts) :
    searchChargers store attrs o =
      match mergeStage attrs (store (geoQueryOf o)) with
      | .error e => .error e
      | .ok items => .ok (sortStage (o.sortBy.getD .distance)
          (filterStage (o.q.getD "") (o.minPower.getD 0) (o.maxPrice.getD 10) items)) := rfl

/-- The pipeline's result after a successful merge. -/
theorem searchChargers_ok {store : GeoQuery → List GeoHit}
    {attrs : String → Hash} {o : SearchOpts} {items : List Item}
    (hm : mergeStage attrs (store (geoQueryOf o)) = .ok items) :
    searchChargers store attrs o =
      .ok (sortStage (o.sortBy.getD .distance)
        (filterStage (o.q.getD "") (o.minPower.getD 0) (o.maxPrice.getD 10) items)) := by
  rw [searchChargers_eq, hm]

/-- Generic stability corollary for `mergeSort`: a filter that only selects
mutually tied elements is unaffected by the sort. -/
theorem filter_mergeSort_ties {β : Type _} (s : β → β → Bool)
    (htrans : ∀ a b c, s a b → s b c → s a c)
    (htotal : ∀ a b, s a b || s b a)
    (M : List β) (p : β → Bool)
    (hties : ∀ x ∈ M, ∀ y ∈ M, p x → p y → s x y) :
    (M.mergeSort s).filter p = M.filter p := by
  have hpair : (M.filter p).Pairwise (fun a b => s a b) := by
    rw [List.pairwise_iff_forall_sublist]
    intro a b hab
    have hmem := hab.subset
    have ha : a ∈ M.filter p := hmem (by simp)
    have hb : b ∈ M.filter p := hmem (by simp)
    rw [List.mem_filter] at ha hb
    exact hties a ha.1 b hb.1 ha.2 hb.2
  have hsub : List.Sublist (M.filter p) (M.mergeSort s) :=
    List.sublist_mergeSort htrans htotal hpair (List.filter_sublist M)
  have hsub2 : List.Sublist (M.filter p) ((M.mergeSort s).filter p) := by
    have h2 := hsub.filter p
    rwa [List.filter_eq_self.mpr (fun a ha => (List.mem_filter.mp ha).2)] at h2
  have hperm : List.Perm ((M.mergeSort s).filter p) (M.filter p) :=
    (List.mergeSort_perm M s).filter p
  exact (hsub2.eq_of_length hperm.length_eq.symm).symm

/-- The sort-key field selected by a sort key. -/
def sortKey (k : SortBy) (c : Item) : ENum :=
  match k with
  | .power => c.powerKW
  | .price => c.pricePerKWh
  | .updated => c.updatedAt
  | .distance => c.distanceKm

/-- A direction-adjusted rational view of the sort key (descending keys are
negated so that every sort reads ascending); only meaningful on records whose
key is not `NaN`. -/
def dirKeyQ (k : SortBy) (c : Item) : ℚ :=
  match k with
  | .power => -(c.powerKW.getD 0)
  | .price => c.pricePerKWh.getD 0
  | .updated => -(c.updatedAt.getD 0)
  | .distance => 0

/-- The ordering each sort key promises in the output: `power` descending,
`price` ascending, `updated` descending (IEEE comparisons). -/
def sortedAfter (k : SortBy) (a b : Item) : Prop :=
  match k with
  | .power => nge a.powerKW b.powerKW = true
  | .price => nle a.pricePerKWh b.pricePerKWh = true
  | .updated => nge a.updatedAt b.updatedAt = true
  | .distance => True

/-- Ascending comparison of the direction-adjusted keys, paired with records. -/
def pairLe (x y : ℚ × Item) : Bool := decide (x.1 ≤ y.1)

/-- Tagging a record with its direction-adjusted key. -/
def pairOf (k : SortBy) (c : Item) : ℚ × Item := (dirKeyQ k c, c)

/-- On records with numeric keys, the source's comparator relation agrees
with the ascending order of direction-adjusted keys. -/
theorem sortLe_eq_pairLe {k : SortBy} (hk : k ≠ .distance) {a b : Item}
    (ha : (sortKey k a).isSome) (hb : (sortKey k b).isSome) :
    sortLe k a b = pairLe (pairOf k a) (pairOf k b) := by
  cases k with
  | distance => exact absurd rfl hk
  | power =>
      obtain ⟨qa, hqa⟩ := Option.isSome_iff_exists.mp ha
      obtain ⟨qb, hqb⟩ := Option.isSome_iff_exists.mp hb
      simp only [sortKey] at hqa hqb
      simp only [sortLe, comparatorVal, pairLe, pairOf, dirKeyQ, hqa, hqb,
        subNum, compNonpos, Option.getD_some]
      rw [decide_eq_decide]
      rw [sub_nonpos]
      exact (neg_le_neg_iff).symm
  | price =>
      obtain ⟨qa, hqa⟩ := Option.isSome_iff_exists.mp ha
      obtain ⟨qb, hqb⟩ := Option.isSome_iff_exists.mp hb
      simp only [sortKey] at hqa hqb
      simp only [sortLe, comparatorVal, pairLe, pairOf, dirKeyQ, hqa, hqb,
        subNum, compNonpos, Option.getD_some]
      rw [decide_eq_decide]
      exact sub_nonpos
  | updated =>
      obtain ⟨qa, hqa⟩ := Option.isSome_iff_exists.mp ha
      obtain ⟨qb, hqb⟩ := Option.isSome_iff_exists.mp hb
      simp only [sortKey] at hqa hqb
      simp only [sortLe, comparatorVal, pairLe, pairOf, dirKeyQ, hqa, hqb,
        subNum, compNonpos, Option.getD_some]
      rw [decide_eq_decide]
      rw [sub_nonpos]
      exact (neg_le_neg_iff).symm

theorem pairLe_trans : ∀ a b c : ℚ × Item, pairLe a b → pairLe b c → pairLe a c := by
  intro a b c hab hbc
  simp only [pairLe, decide_eq_true_eq] at hab hbc ⊢
  exact le_trans hab hbc

theorem pairLe_total : ∀ a b : ℚ × Item, pairLe a b || pairLe b a := by
  intro a b
  simp only [pairLe]
  rcases le_total a.1 b.1 with h | h <;> simp [h]

/-- Equal sort keys give equal direction-adjusted keys. -/
theorem dirKeyQ_eq_of_sortKey {k : SortBy} {a b : Item}
    (hab : sortKey k a = sortKey k b) : dirKeyQ k a = dirKeyQ k b := by
  cases k with
  | distance => rfl
  | power => simp only [sortKey] at hab; simp only [dirKeyQ, hab]
  | price => simp only [sortKey] at hab; simp only [dirKeyQ, hab]
  | updated => simp only [sortKey] at hab; simp only [dirKeyQ, hab]

/-- Converting the pair ordering back to the promised per-key ordering, on
records with numeric keys. -/
theorem sortedAfter_of_pairLe {k : SortBy} {a b : Item}
    (ha : (sortKey k a).isSome) (hb : (sortKey k b).isSome)
    (h : pairLe (pairOf k a) (pairOf k b)) : sortedAfter k a b := by
  cases k with
  | distance => trivial
  | power =>
      obtain ⟨qa, hqa⟩ := Option.isSome_iff_exists.mp ha
      obtain ⟨qb, hqb⟩ := Option.isSome_iff_exists.mp hb
      simp only [sortKey] at hqa hqb
      simp only [pairLe, pairOf, dirKeyQ, hqa, hqb, Option.getD_some,
        decide_eq_true_eq] at h
      simp only [sortedAfter, nge, hqa, hqb]
      exact decide_eq_true (neg_le_neg_iff.mp h)
  | price =>
      obtain ⟨qa, hqa⟩ := Option.isSome_iff_exists.mp ha
      obtain ⟨qb, hqb⟩ := Option.isSome_iff_exists.mp hb
      simp only [sortKey] at hqa hqb
      simp only [pairLe, pairOf, dirKeyQ, hqa, hqb, Option.getD_some,
        decide_eq_true_eq] at h
      simp only [sortedAfter, nle, hqa, hqb]
      exact decide_eq_true h
  | updated =>
      obtain ⟨qa, hqa⟩ := Option.isSome_iff_exists.mp ha
      obtain ⟨qb, hqb⟩ := Option.isSome_iff_exists.mp hb
      simp only [sortKey] at hqa hqb
      simp only [pairLe, pairOf, dirKeyQ, hqa, hqb, Option.getD_some,
        decide_eq_true_eq] at h
      simp only [sortedAfter, nge, hqa, hqb]
      exact decide_eq_true (neg_le_neg_iff.mp h)

/-- On numeric keys, the sort stage orders its output by the selected key in
the promised direction. -/
theorem sortStage_pairwise {k : SortBy} (hkd : k ≠ .distance) (items : List Item)
    (hk : ∀ c ∈ items, (sortKey k c).isSome) :
    (sortStage k items).Pairwise (sortedAfter k) := by
  have hmap : (items.mergeSort (sortLe k)).map (pairOf k)
      = (items.map (pairOf k)).mergeSort pairLe :=
    List.map_mergeSort (fun a ha b hb => sortLe_eq_pairLe hkd (hk a ha) (hk b hb))
  have hsorted := List.sorted_mergeSort pairLe_trans pairLe_total (items.map (pairOf k))
  rw [← hmap, List.pairwise_map] at hsorted
  have hmem : ∀ c ∈ items.mergeSort (sortLe k), (sortKey k c).isSome := by
    intro c hc
    exact hk c (List.mem_mergeSort.mp hc)
  have hres : (items.mergeSort (sortLe k)).Pairwise (sortedAfter k) := by
    rw [List.pairwise_iff_forall_sublist] at hsorted ⊢
    intro a b hab
    have hmemab := hab.subset
    exact sortedAfter_of_pairLe (hmem a (hmemab (by simp)))
      (hmem b (hmemab (by simp))) (hsorted hab)
  simpa [sortStage, hkd] using hres

/-- On numeric keys, the sort stage is stable: records sharing a sort-key
value keep their incoming relative order. -/
theorem sortStage_filter_key {k : SortBy} (hkd : k ≠ .distance)
    (items : List Item) (hk : ∀ c ∈ items, (sortKey k c).isSome) (v : ℚ) :
    (sortStage k items).filter (fun c => sortKey k c == some v)
      = items.filter (fun c => sortKey k c == some v) := by
  have hmap : (items.mergeSort (sortLe k)).map (pairOf k)
      = (items.map (pairOf k)).mergeSort pairLe :=
    List.map_mergeSort (fun a ha b hb => sortLe_eq_pairLe hkd (hk a ha) (hk b hb))
  have hties : ∀ x ∈ items.map (pairOf k), ∀ y ∈ items.map (pairOf k),
      (sortKey k x.2 == some v) → (sortKey k y.2 == some v) → pairLe x y := by
    intro x hx y hy hxv hyv
    obtain ⟨a, _, rfl⟩ := List.mem_map.mp hx
    obtain ⟨b, _, rfl⟩ := List.mem_map.mp hy
    simp only [pairOf] at hxv hyv ⊢
    have hxv' := eq_of_beq hxv
    have hyv' := eq_of_beq hyv
    have heq : dirKeyQ k a = dirKeyQ k b :=
      dirKeyQ_eq_of_sortKey (hxv'.trans hyv'.symm)
    simp [pairLe, heq]
  have hstab := filter_mergeSort_ties pairLe pairLe_trans pairLe_total
    (items.map (pairOf k)) (fun x => sortKey k x.2 == some v) hties
  rw [← hmap, List.filter_map, List.filter_map] at hstab
  have hinj : Function.Injective (pairOf k) := by
    intro a b h
    exact congrArg Prod.snd h
  have hres := List.map_injective_iff.mpr hinj hstab
  have hcomp : ((fun x : ℚ × Item => sortKey k x.2 == some v) ∘ pairOf k)
      = (fun c => sortKey k c == some v) := rfl
  rw [hcomp] at hres
  simpa [sortStage, hkd] using hres

/-- The record a hit with a missing attribute record is merged into: every
attribute field defaulted (`none`/`NaN`) or empty. -/
def defaultedItem (g : GeoHit) : Item :=
  { id := g.member, name := none, address := none, powerKW := none,
    pricePerKWh := none, status := none, amenities := .arr [],
    updatedAt := none, coords := resolveCoords g hashEmpty,
    distanceKm := distVal g.distance }

/-! ## Concrete fixtures for witnesses and counterexamples -/

/-- A hit with a positive reported distance and no coordinate echo. -/
def gHitA : GeoHit := { member := "a", distance := some 5, coordinates := none }

/-- A hit whose reported distance is exactly `0` (origin on the charger). -/
def gHitZero : GeoHit := { member := "z", distance := some 0, coordinates := none }

/-- A well-formed attribute record. -/
def hashA : Hash :=
  { name := some "Alpha Charger", address := some "1 Orchard Road",
    powerKW := some "50", pricePerKWh := some "1", amenities := none,
    updatedAt := some "100" }

/-- An attribute record whose amenities field is a non-empty string that is
not valid JSON. -/
def hashBad : Hash :=
  { name := some "Bad", powerKW := some "50", pricePerKWh := some "1",
    amenities := some "oops", updatedAt := some "1" }

/-- The record built from `gHitA` and `hashA`. -/
def itemA : Item :=
  { id := "a", name := some "Alpha Charger", address := some "1 Orchard Road",
    powerKW := some 50, pricePerKWh := some 1, status := none,
    amenities := .arr [], updatedAt := some 100, coords := none,
    distanceKm := some 5 }

/-- The record built from `gHitZero` and `hashA`: its distance is `NaN`. -/
def itemZ : Item := { itemA with id := "z", distanceKm := none }

/-- A call with every optional parameter omitted. -/
def o1 : SearchOpts := ⟨0, 0, none, none, none, none, none, none⟩

/-- A hit carrying a coordinate echo. -/
def gHitC : GeoHit :=
  { member := "c", distance := some 2, coordinates := some ⟨103, 1⟩ }

/-- An attribute record that also stores display coordinates. -/
def hashC : Hash := { hashA with lat := some "2", lng := some "3" }

/-- The record built from `gHitC` and `hashC`. -/
def itemC : Item :=
  { itemA with id := "c", coords := some ⟨some 2, some 3⟩, distanceKm := some 2 }

/-- Characterisation of the per-field text match. -/
theorem matchText_eq_true_iff (query : String) (f : Option String) :
    matchText query f = true ↔
      ∃ s, f = some s ∧ hasInfix (lowerStr s).toList query.toList = true := by
  cases f with
  | none =>
      constructor
      · intro h
        exact absurd h (by simp [matchText])
      · rintro ⟨s, hs, _⟩
        exact absurd hs (by simp)
  | some s =>
      constructor
      · intro h
        exact ⟨s, rfl, h⟩
      · rintro ⟨s', hs', h⟩
        injection hs' with hs'
        subst hs'
        exact h

/-! ## The claims -/

/-- C3: a record passes the filter stage iff all three predicates hold: the
lowercased, trimmed query text is empty or occurs as a substring of the
lowercased name or address; `powerKW >= minPower` (IEEE, false on `NaN`);
and `pricePerKWh <= maxPrice + 1e-9` (IEEE, false on `NaN`).  With empty
query text the text predicate is vacuously true. -/
theorem C3_filter_keeps_iff (q : String) (minP maxP : ℚ) (items : List Item)
    (c : Item) :
    c ∈ filterStage q minP maxP items ↔
      c ∈ items ∧
      (trimStr (lowerStr q) = "" ∨
        (∃ n, c.name = some n ∧
          hasInfix (lowerStr n).toList (trimStr (lowerStr q)).toList = true) ∨
        (∃ a, c.address = some a ∧
          hasInfix (lowerStr a).toList (trimStr (lowerStr q)).toList = true)) ∧
      nge c.powerKW (some minP) = true ∧
      nle c.pricePerKWh (some (maxP + 1 / 1000000000)) = true := by
  unfold filterStage
  rw [List.mem_filter]
  refine and_congr_right (fun _ => ?_)
  unfold keepItem
  rw [Bool.and_eq_true, Bool.and_eq_true, Bool.or_eq_true, Bool.or_eq_true,
    matchText_eq_true_iff, matchText_eq_true_iff, decide_eq_true_eq]
  constructor
  · rintro ⟨⟨hq, hpow⟩, hpr⟩
    exact ⟨or_assoc.mp hq, hpow, hpr⟩
  · rintro ⟨hq, hpow, hpr⟩
    exact ⟨⟨or_assoc.mpr hq, hpow⟩, hpr⟩

/-- C7: the coords field of every merged record is resolved by preference
order: both `lat` and `lng` stored (truthy) in the attribute record gives the
numerically coerced stored pair; otherwise a coordinate echo from the index
is used; otherwise coords is absent. -/
theorem C7_coords_preference (g : GeoHit) (h : Hash) (itm : Item)
    (hok : buildItem g h = .ok itm) :
    itm.coords = resolveCoords g h ∧
    (strTruthy h.lat = true → strTruthy h.lng = true →
      resolveCoords g h = some ⟨jsNumber h.lat, jsNumber h.lng⟩) ∧
    (¬(strTruthy h.lat = true ∧ strTruthy h.lng = true) →
      resolveCoords g h =
        g.coordinates.map (fun c => ⟨some c.latitude, some c.longitude⟩)) := by
  obtain ⟨am, ham, rfl⟩ := buildItem_ok_iff.mp hok
  refine ⟨rfl, ?_, ?_⟩
  · intro h1 h2
    simp [resolveCoords, h1, h2]
  · intro hno
    have hfalse : (strTruthy h.lat && strTruthy h.lng) = false := by
      cases h1 : strTruthy h.lat with
      | false => rfl
      | true =>
          cases h2 : strTruthy h.lng with
          | false => rfl
          | true => exact absurd ⟨h1, h2⟩ hno
    unfold resolveCoords
    rw [hfalse]
    simp only [Bool.false_eq_true, if_false]
    cases g.coordinates <;> rfl

/-- C7 witness: a record whose attribute store has truthy `lat`/`lng`. -/
theorem C7_witness :
    buildItem gHitC hashC = .ok itemC ∧
    itemC.coords = resolveCoords gHitC hashC := by
  have hb : buildItem gHitC hashC = .ok itemC := by with_unfolding_all rfl
  exact ⟨hb, (C7_coords_preference gHitC hashC itemC hb).1⟩

/-- C8: a query whose radius search returns no hits, or whose merged records
all fail the filter, yields the empty list and no error. -/
theorem C8_empty_results (store : GeoQuery → List GeoHit)
    (attrs : String → Hash) (o : SearchOpts) :
    (store (geoQueryOf o) = [] → searchChargers store attrs o = .ok []) ∧
    (∀ items, mergeStage attrs (store (geoQueryOf o)) = .ok items →
      filterStage (o.q.getD "") (o.minPower.getD 0) (o.maxPrice.getD 10) items
        = [] →
      searchChargers store attrs o = .ok []) := by
  have hnil : ∀ k, sortStage k ([] : List Item) = [] := by
    intro k
    unfold sortStage
    split <;> simp
  constructor
  · intro hempty
    have hm : mergeStage attrs (store (geoQueryOf o)) = .ok [] := by
      rw [hempty]
      rfl
    rw [searchChargers_ok hm,
      show filterStage (o.q.getD "") (o.minPower.getD 0) (o.maxPrice.getD 10)
        ([] : List Item) = [] from rfl, hnil]
  · intro items hm hf
    rw [searchChargers_ok hm, hf, hnil]

/-- C8 witness: an empty hit list yields `ok []`. -/
theorem C8_witness :
    searchChargers (fun _ => []) (fun _ => hashA) o1 = .ok [] :=
  (C8_empty_results (fun _ => []) (fun _ => hashA) o1).1 rfl

/-- C9: omitting every optional parameter behaves exactly like passing
`radiusKm = 30`, `limit = 200`, `minPower = 0`, `maxPrice = 10`, `q = ""`,
`sortBy = distance`; in particular every returned record still satisfies
`pricePerKWh <= 10 + 1e-9`. -/
theorem C9_defaults (store : GeoQuery → List GeoHit) (attrs : String → Hash)
    (lat lng : ℚ) :
    searchChargers store attrs ⟨lat, lng, none, none, none, none, none, none⟩ =
      searchChargers store attrs
        ⟨lat, lng, some 30, some 200, some 0, some 10, some "", some .distance⟩ ∧
    (∀ l, searchChargers store attrs
        ⟨lat, lng, none, none, none, none, none, none⟩ = .ok l →
      ∀ c ∈ l, nle c.pricePerKWh (some (10 + 1 / 1000000000)) = true) := by
  refine ⟨rfl, ?_⟩
  intro l hl c hc
  cases hm : mergeStage attrs
      (store (geoQueryOf ⟨lat, lng, none, none, none, none, none, none⟩)) with
  | error e =>
      rw [searchChargers_eq, hm] at hl
      exact absurd hl (by simp)
  | ok items =>
      rw [searchChargers_ok hm] at hl
      injection hl with hl
      subst hl
      have hc2 : c ∈ filterStage "" 0 10 items := by
        simpa [sortStage] using hc
      have hkeep := (List.mem_filter.mp hc2).2
      unfold keepItem at hkeep
      rw [Bool.and_eq_true] at hkeep
      exact hkeep.2

/-- C9 witness: a concrete unfiltered-looking call whose returned record
satisfies the silent price bound. -/
theorem C9_witness : nle itemA.pricePerKWh (some (10 + 1 / 1000000000)) = true :=
  (C9_defaults (fun _ => [gHitA]) (fun _ => hashA) 0 0).2 [itemA]
    (by with_unfolding_all rfl) itemA (by simp)

/-- C10: a falsy reported distance — absent, or exactly `0` as when the
origin coincides with the indexed position — makes the built record's
`distanceKm` equal to `NaN` (`none` in this model), not `0`. -/
theorem C10_falsy_distance_nan (g : GeoHit) (h : Hash) (itm : Item)
    (hok : buildItem g h = .ok itm)
    (hf : g.distance = none ∨ g.distance = some 0) :
    itm.distanceKm = none ∧ itm.distanceKm ≠ some 0 := by
  obtain ⟨am, ham, rfl⟩ := buildItem_ok_iff.mp hok
  rcases hf with hf | hf <;> simp [distVal, hf]

/-- C10 witness: the zero-distance hit. -/
theorem C10_witness : itemZ.distanceKm = none ∧ itemZ.distanceKm ≠ some 0 :=
  C10_falsy_distance_nan gHitZero hashA itemZ (by with_unfolding_all rfl)
    (Or.inr rfl)

/-- A record with a higher power rating. -/
def itemB : Item := { itemA with id := "b", powerKW := some 150 }

/-- A distance-ascending record list with a power tie between the first and
last entries. -/
def items4 : List Item := [itemA, itemB, itemC]

/-- C1 (counterexample): the store returns one hit and its attribute record
is missing (empty map); the merge stage does build a defaulted record for it,
but the returned list of `searchChargers` is empty — the record was dropped,
contradicting the claim that it still appears in the results. -/
theorem C1_counterexample :
    mergeStage (fun _ => hashEmpty) [gHitA] = .ok [defaultedItem gHitA] ∧
    searchChargers (fun _ => [gHitA]) (fun _ => hashEmpty) o1 = .ok [] := by
  constructor <;> with_unfolding_all rfl

/-- C1 (amended): a hit whose attribute record is missing is still merged
into a record with defaulted/undefined attribute fields — the merge neither
drops it nor raises an error — but its `NaN` numeric fields then fail the
power and price filter predicates, so the record is excluded from the list
`searchChargers` returns, whatever the query parameters. -/
theorem C1_missing_attr_merged_then_filtered (g : GeoHit) (query : String)
    (minP maxP : ℚ) :
    buildItem g hashEmpty = .ok (defaultedItem g) ∧
    (defaultedItem g).name = none ∧
    (defaultedItem g).powerKW = none ∧
    (defaultedItem g).pricePerKWh = none ∧
    (defaultedItem g).updatedAt = none ∧
    keepItem query minP maxP (defaultedItem g) = false := by
  refine ⟨?_, rfl, rfl, rfl, rfl, ?_⟩
  · with_unfolding_all rfl
  · simp [keepItem, defaultedItem, nge]

/-- C2 (counterexample): a stored amenities field holding the non-empty,
non-JSON string `oops` makes the whole call abort with the parse error
instead of defaulting the field to the empty list. -/
theorem C2_counterexample :
    searchChargers (fun _ => [gHitA]) (fun _ => hashBad) o1 =
      .error .syntaxError := by
  with_unfolding_all rfl

/-- C2 (amended): the amenities field is defaulted to the empty list only
when the stored value is falsy (absent or the empty string); a non-empty
stored value that fails to parse as JSON throws, aborting the whole call
with an error. -/
theorem C2_malformed_amenities_abort (store : GeoQuery → List GeoHit)
    (attrs : String → Hash) (o : SearchOpts) (g : GeoHit)
    (hg : g ∈ store (geoQueryOf o))
    (hbad : amenitiesVal (attrs g.member).amenities = none) :
    searchChargers store attrs o = .error .syntaxError ∧
    amenitiesVal none = some (.arr []) ∧
    amenitiesVal (some "") = some (.arr []) := by
  refine ⟨?_, rfl, rfl⟩
  have hb : buildItem g (attrs g.member) = .error .syntaxError := by
    unfold buildItem
    rw [hbad]
  rw [searchChargers_eq, mergeStage_error_of_mem hg hb]

/-- C2 witness: the abort theorem applied at a concrete malformed store. -/
theorem C2_witness :
    searchChargers (fun _ => [gHitA]) (fun _ => hashBad) o1 =
      .error .syntaxError ∧
    amenitiesVal none = some (.arr []) ∧
    amenitiesVal (some "") = some (.arr []) :=
  C2_malformed_amenities_abort (fun _ => [gHitA]) (fun _ => hashBad) o1 gHitA
    (by simp) rfl

/-- Records kept by the filter always have numeric power and price fields
(an IEEE comparison against `NaN` never passes). -/
theorem filterStage_power_price_isSome (q : String) (minP maxP : ℚ)
    (its : List Item) :
    ∀ c ∈ filterStage q minP maxP its,
      c.powerKW.isSome ∧ c.pricePerKWh.isSome := by
  intro c hc
  unfold filterStage at hc
  have hkeep := (List.mem_filter.mp hc).2
  unfold keepItem at hkeep
  rw [Bool.and_eq_true, Bool.and_eq_true] at hkeep
  constructor
  · rcases hp : c.powerKW with _ | qv
    · rw [hp] at hkeep
      exact absurd hkeep.1.2 (by simp [nge])
    · rfl
  · rcases hp : c.pricePerKWh with _ | qv
    · rw [hp] at hkeep
      exact absurd hkeep.2 (by simp [nle])
    · rfl

/-- C4: for a non-`distance` sort key and numeric key values, the output of
the sort stage is ordered by that key in the promised direction (`power`
descending, `price` ascending, `updated` descending) and records with equal
key values keep their incoming (distance-ascending) relative order; for the
`distance` key the incoming order is returned unchanged.  The numeric-key
hypothesis reflects that ECMAScript defines the sort result only for
consistent comparators, which the subtraction comparators are exactly on
non-`NaN` keys; the last conjunct shows the hypothesis holds automatically
for the `power` and `price` keys on every filtered record list, so only a
missing/non-numeric `updatedAt` can escape it. -/
theorem C4_sort_spec (k : SortBy) (items : List Item)
    (hk : ∀ c ∈ items, (sortKey k c).isSome) :
    sortStage .distance items = items ∧
    (k ≠ .distance →
      (sortStage k items).Pairwise (sortedAfter k) ∧
      ∀ v : ℚ, (sortStage k items).filter (fun c => sortKey k c == some v)
        = items.filter (fun c => sortKey k c == some v)) ∧
    (∀ q minP maxP its, ∀ c ∈ filterStage q minP maxP its,
      (sortKey .power c).isSome ∧ (sortKey .price c).isSome) := by
  refine ⟨by simp [sortStage], ?_, ?_⟩
  · intro hkd
    exact ⟨sortStage_pairwise hkd items hk,
      fun v => sortStage_filter_key hkd items hk v⟩
  · intro q minP maxP its c hc
    exact filterStage_power_price_isSome q minP maxP its c hc

/-- C4 witness: the sort specification at a concrete power-sorted list with
a tie. -/
theorem C4_witness :
    sortStage .distance items4 = items4 ∧
    (sortStage .power items4).Pairwise (sortedAfter .power) := by
  have h := C4_sort_spec .power items4 (by decide)
  exact ⟨h.1, (h.2.1 (by decide)).1⟩

/-- C5 (counterexample): all reported distances lie within the radius, yet
the returned record's `distanceKm` is `NaN` (`none`) — neither non-negative
nor within the radius under IEEE comparison — because a reported distance of
exactly `0` is falsy. -/
theorem C5_counterexample :
    gHitZero.distance = some 0 ∧ ((0 : ℚ) ≤ 30) ∧
    searchChargers (fun _ => [gHitZero]) (fun _ => hashA) o1 = .ok [itemZ] ∧
    nge itemZ.distanceKm (some 0) = false ∧
    nle itemZ.distanceKm (some 30) = false := by
  refine ⟨rfl, by norm_num, by with_unfolding_all rfl, rfl, rfl⟩

/-- C5 (amended): if every hit the geo index returns has a present, positive
reported distance within the search radius, then every record in the
returned list has that positive distance, unaltered and within the radius —
the merge, filter and sort stages never change `distanceKm`.  (A reported
distance of exactly `0` instead yields `NaN`.) -/
theorem C5_distance_within_radius (store : GeoQuery → List GeoHit)
    (attrs : String → Hash) (o : SearchOpts) (l : List Item)
    (hd : ∀ g ∈ store (geoQueryOf o), ∃ d, g.distance = some d ∧ 0 < d ∧
      d ≤ (geoQueryOf o).radius)
    (hok : searchChargers store attrs o = .ok l) :
    ∀ c ∈ l, ∃ d, c.distanceKm = some d ∧ 0 < d ∧
      d ≤ (geoQueryOf o).radius := by
  intro c hc
  cases hm : mergeStage attrs (store (geoQueryOf o)) with
  | error e =>
      rw [searchChargers_eq, hm] at hok
      exact absurd hok (by simp)
  | ok items =>
      rw [searchChargers_ok hm] at hok
      injection hok with hok
      subst hok
      have hc2 : c ∈ filterStage (o.q.getD "") (o.minPower.getD 0)
          (o.maxPrice.getD 10) items := by
        revert hc
        unfold sortStage
        split
        · exact id
        · intro hc
          exact List.mem_mergeSort.mp hc
      unfold filterStage at hc2
      have hc3 : c ∈ items := (List.mem_filter.mp hc2).1
      obtain ⟨g, hg, hb⟩ := mergeStage_ok_mem hm c hc3
      obtain ⟨d, hgd, hdpos, hdle⟩ := hd g hg
      obtain ⟨am, ham, rfl⟩ := buildItem_ok_iff.mp hb
      refine ⟨d, ?_, hdpos, hdle⟩
      show distVal g.distance = some d
      simp [distVal, hgd, ne_of_gt hdpos]

/-- C5 witness: the amended bound at a concrete in-radius store. -/
theorem C5_witness :
    ∃ d, itemA.distanceKm = some d ∧ 0 < d ∧ d ≤ (geoQueryOf o1).radius :=
  C5_distance_within_radius (fun _ => [gHitA]) (fun _ => hashA) o1 [itemA]
    (by
      intro g hg
      simp only [List.mem_singleton] at hg
      subst hg
      exact ⟨5, rfl, by norm_num, by show (5 : ℚ) ≤ 30; norm_num⟩)
    (by with_unfolding_all rfl) itemA (by simp)

/-- C6 (counterexample): with a malformed amenities field the merge stage
produces no record list at all — it aborts with a parse error — so its
result cannot have the length of the hit list. -/
theorem C6_counterexample :
    mergeStage (fun _ => hashBad) [gHitA] = .error .syntaxError := by
  with_unfolding_all rfl

/-- C6 (amended): whenever the merge stage succeeds — every amenities field
parses — it produces exactly one record per geo-index hit, the `i`-th record
being built from the `i`-th hit, preserving the index's distance-ascending
order. -/
theorem C6_merge_length_order (attrs : String → Hash) (geo : List GeoHit)
    (l : List Item) (hok : mergeStage attrs geo = .ok l) :
    l.length = geo.length ∧
    ∀ (i : ℕ) (g : GeoHit), geo[i]? = some g →
      ∃ c, l[i]? = some c ∧ buildItem g (attrs g.member) = .ok c :=
  mergeStage_ok_get hok

/-- C6 witness: the merged list of a one-hit store has length one. -/
theorem C6_witness :
    ([itemA] : List Item).length = ([gHitA] : List GeoHit).length :=
  (C6_merge_length_order (fun _ => hashA) [gHitA] [itemA]
    (by with_unfolding_all rfl)).1

end EvCharger
